import Mathlib

/-!
Shallow embedding of the go-pgsql repository's core: the pgx transaction
manager (`src/pgx/tx_manager.go`) and the pgxpool pool set and registry
(`src/pgxpool/pools.go`, `src/pgxpool/registry.go`).

Go effects are made explicit:
* `St` records the calls made on the underlying connection (number of
  `Begin`, `Commit`, `Rollback` calls) together with a heap of `int32`
  counter cells — `context.WithValue` stores a *pointer* to the nesting
  counter, so contexts hold a cell index into that heap.
* A Go `context.Context` variable is `GoCtx := Option Ctx`; `none` is the
  nil interface value (method calls on it panic).
* Fallible calls return `Option Err` (`none` = Go `nil` error); a
  computation that can panic returns `Except Panic _`.
* The behaviour of the external collaborators (the pgx connection, config
  parsing, pool connection) is a parameter (`ConnSpec`, `PoolEnv`) giving
  the outcome of each successive call, so theorems quantify over every
  possible collaborator behaviour.
-/

namespace GoPgsql

/-- A Go `error` value: `errors.New` sentinels of the repository plus
arbitrary other error values. -/
inductive Err where
  | noTransaction : Err
  | unknownPool : Err
  | e : Nat → Err
deriving DecidableEq

/-- A Go panic value: a value passed to `panic(...)` by the unit of work, a
runtime nil-interface dereference, or a failed type assertion. -/
inductive Panic where
  | user : Nat → Panic
  | nilDeref : Panic
  | typeAssert : Panic
deriving DecidableEq

/-- A transaction handle (`pgx.Tx`); identified by the index of the
`Begin` call that produced it. -/
abbrev Tx := Nat

/-- The values a context of this package carries: `tx` is what
`ctx.Value(txKey)` yields, `counterRef` the `*int32` stored under
`txCounterKey` (an index into the heap of counter cells). -/
structure Ctx where
  tx : Option Tx
  counterRef : Option Nat
deriving DecidableEq

/-- A Go `context.Context` variable; `none` is the nil interface. -/
abbrev GoCtx := Option Ctx

/-- The observable state threaded through a run: counts of the calls made
on the underlying connection and its transaction handles, and the heap of
counter cells (`cells i` is the value of cell `i`; `nextCell` the next
fresh index). -/
structure St where
  begins : Nat
  commits : Nat
  rollbacks : Nat
  cells : Nat → Int
  nextCell : Nat

/-- Behaviour of the external connection: the outcome of the n-th
`conn.Begin`, `tx.Commit`, `tx.Rollback` call (`none` = success). -/
structure ConnSpec where
  beginRes : Nat → Option Err
  commitRes : Nat → Option Err
  rollbackRes : Nat → Option Err

/-- `conn.Begin(ctx)`: consult the collaborator for the outcome of this
call and count it. -/
def connBegin (cs : ConnSpec) (s : St) : Except Err Tx × St :=
  match cs.beginRes s.begins with
  | some err => (.error err, { s with begins := s.begins + 1 })
  | none => (.ok s.begins, { s with begins := s.begins + 1 })

/-- `tx.Commit(ctx)` on the (single) transaction handle. -/
def txCommit (cs : ConnSpec) (s : St) : Option Err × St :=
  (cs.commitRes s.commits, { s with commits := s.commits + 1 })

/-- `tx.Rollback(ctx)` on the (single) transaction handle. -/
def txRollback (cs : ConnSpec) (s : St) : Option Err × St :=
  (cs.rollbackRes s.rollbacks, { s with rollbacks := s.rollbacks + 1 })

/-- Overwrite counter cell `i`. -/
def setCell (s : St) (i : Nat) (v : Int) : St :=
  { s with cells := Function.update s.cells i v }

/-- `Transactor` from `src/pgx/tx_manager.go`, holding its `conn`. -/
structure Transactor where
  conn : ConnSpec

/-- `tickTxCounter(ctx, val)`: read the `*int32` under `txCounterKey`,
initialise a fresh zero cell when absent, and atomically add `val`.
Called on a nil context (as `beginNestedTx` does after a failed begin) it
panics: `ctx.Value` dereferences the nil interface. -/
def tickTxCounter (gctx : GoCtx) (val : Int) (s : St) : Except Panic Ctx × St :=
  match gctx with
  | none => (.error .nilDeref, s)
  | some ctx =>
    match ctx.counterRef with
    | none =>
      let i := s.nextCell
      let s1 := setCell { s with nextCell := s.nextCell + 1 } i 0
      (.ok { ctx with counterRef := some i }, setCell s1 i (s1.cells i + val))
    | some i =>
      (.ok ctx, setCell s i (s.cells i + val))

/-- `Transactor.begin`: begin on the connection; on failure return the
nil context and the error, on success a context carrying the handle. -/
def Transactor.begin (t : Transactor) (ctx : Ctx) (s : St) :
    (GoCtx × Option Err) × St :=
  match connBegin t.conn s with
  | (.error err, s1) => ((none, some err), s1)
  | (.ok tx, s1) => ((some { ctx with tx := some tx }, none), s1)

/-- `Transactor.commit`: commit the handle in the context, or
`ErrNoTransaction` when the context carries none. -/
def Transactor.commit (t : Transactor) (ctx : Ctx) (s : St) : Option Err × St :=
  match ctx.tx with
  | none => (some .noTransaction, s)
  | some _ => txCommit t.conn s

/-- `Transactor.rollback`: roll back the handle in the context, or
`ErrNoTransaction` when the context carries none. -/
def Transactor.rollback (t : Transactor) (ctx : Ctx) (s : St) : Option Err × St :=
  match ctx.tx with
  | none => (some .noTransaction, s)
  | some _ => txRollback t.conn s

/-- Result of a unit of work or of a `WithTx`-style wrapper: either a
panic propagates, or an error value (`none` = nil) is returned. -/
abbrev WRes := Except Panic (Option Err)

/-- A unit of work `func(context.Context, pgx.Tx) error`, with the
explicit state it may thread (nested manager calls live here). -/
abbrev Work := Ctx → Tx → St → WRes × St

/-- `Transactor.WithTx`: run the work on an existing handle if the
context has one; otherwise begin, run the work, and in a deferred block
roll back on panic (re-raising it) or on error (keeping the original
error), or commit on success (a commit failure becomes the result). -/
def Transactor.WithTx (t : Transactor) (ctx : Ctx) (tFunc : Work) (s : St) :
    WRes × St :=
  match ctx.tx with
  | some tx => tFunc ctx tx s
  | none =>
    match t.begin ctx s with
    | ((_, some err), s1) => (.ok (some err), s1)
    | ((some ctx1, none), s1) =>
      match ctx1.tx with
      | some tx =>
        match tFunc ctx1 tx s1 with
        | (.error p, s2) => (.error p, (t.rollback ctx1 s2).2)
        | (.ok (some err), s2) => (.ok (some err), (t.rollback ctx1 s2).2)
        | (.ok none, s2) =>
          let (ce, s3) := t.commit ctx1 s2
          (.ok ce, s3)
      -- unreachable: a successful begin always stores the handle
      | none => (.error .typeAssert, s1)
    -- unreachable: begin never pairs a nil context with a nil error
    | ((none, none), s1) => (.error .typeAssert, s1)

/-- `Transactor.beginNestedTx`: increment the depth counter; reuse an
existing handle (`nested = false`), else begin one (`nested = true`).
When begin fails the Go code decrements the counter on the context begin
returned — which is nil, so that call panics. -/
def Transactor.beginNestedTx (t : Transactor) (ctx : Ctx) (s : St) :
    Except Panic (Ctx × Bool × Option Err) × St :=
  match tickTxCounter (some ctx) 1 s with
  | (.error p, s1) => (.error p, s1)
  | (.ok ctx1, s1) =>
    match ctx1.tx with
    | some _ => (.ok (ctx1, false, none), s1)
    | none =>
      match t.begin ctx1 s1 with
      | ((gctx2, some err), s2) =>
        match tickTxCounter gctx2 (-1) s2 with
        | (.error p, s3) => (.error p, s3)
        | (.ok ctx3, s3) => (.ok (ctx3, false, some err), s3)
      | ((some ctx2, none), s2) => (.ok (ctx2, true, none), s2)
      -- unreachable: begin never pairs a nil context with a nil error
      | ((none, none), s2) => (.error .typeAssert, s2)

/-- `Transactor.WithNestedTx`: begin or join via `beginNestedTx`; run the
work; in the deferred block decrement the counter first, then only the
owner (`nested = true`) rolls back on panic or error or commits on
success, while a non-owner propagates the outcome untouched. -/
def Transactor.WithNestedTx (t : Transactor) (ctx : Ctx) (tFunc : Work) (s : St) :
    WRes × St :=
  match t.beginNestedTx ctx s with
  | (.error p, s1) => (.error p, s1)
  | (.ok (_, _, some err), s1) => (.ok (some err), s1)
  | (.ok (ctx1, nested, none), s1) =>
    match ctx1.tx with
    -- unreachable: after a successful beginNestedTx a handle is present
    | none => (.error .typeAssert, s1)
    | some tx =>
      match tFunc ctx1 tx s1 with
      | (.error p, s2) =>
        match tickTxCounter (some ctx1) (-1) s2 with
        | (.error p2, s3) => (.error p2, s3)
        | (.ok ctx2, s3) =>
          if nested then (.error p, (t.rollback ctx2 s3).2) else (.error p, s3)
      | (.ok (some err), s2) =>
        match tickTxCounter (some ctx1) (-1) s2 with
        | (.error p2, s3) => (.error p2, s3)
        | (.ok ctx2, s3) =>
          if nested then (.ok (some err), (t.rollback ctx2 s3).2)
          else (.ok (some err), s3)
      | (.ok none, s2) =>
        match tickTxCounter (some ctx1) (-1) s2 with
        | (.error p2, s3) => (.error p2, s3)
        | (.ok ctx2, s3) =>
          if nested then
            let (ce, s4) := t.commit ctx2 s3
            (.ok ce, s4)
          else (.ok none, s3)

/-! ## Pool set and registry (`src/pgxpool`) -/

/-- `Pools` from `src/pgxpool/pools.go`: the ordered pools (a pool is
identified by the node address it was opened for) and the `uint64`
round-robin counter. -/
structure Pools where
  pools : List String
  count : Nat
deriving DecidableEq

/-- `Pools.slave(n)`: index 0 when `n <= 1`, else
`1 + (atomic.AddUint64(&p.count, 1) % uint64(n-1))` (the add returns the
incremented counter, wrapping as a uint64). Returns the index and the
pool set with the updated counter. -/
def Pools.slave (p : Pools) (n : Nat) : Nat × Pools :=
  if n ≤ 1 then (0, p)
  else
    let c := (p.count + 1) % 2 ^ 64
    (1 + c % (n - 1), { p with count := c })

/-- `Pools.Master()`: `p.pools[0]` (`none` models the index-out-of-range
panic on an empty sequence). -/
def Pools.Master (p : Pools) : Option String := p.pools[0]?

/-- `Pools.Slave()`: `p.pools[p.slave(len(p.pools))]`. -/
def Pools.Slave (p : Pools) : Option String × Pools :=
  let (i, p1) := p.slave p.pools.length
  (p1.pools[i]?, p1)

/-- One entry of `Configs` (`src/pgxpool/registry.go`): only `Nodes`
drives control flow; the remaining fields are copied verbatim into the
external pool configuration. -/
structure Config where
  nodes : List String
  maxConns : Int
  minConns : Int
  maxConnLifetime : Int
  maxConnIdleTime : Int
  healthCheckPeriod : Int
  lazyConnect : Bool
  preferSimpleProtocol : Bool
deriving DecidableEq

/-- Behaviour of the external collaborators of `Open`: the outcome of
`pgxpool.ParseConfig` and `pgxpool.ConnectConfig` for each node string. -/
structure PoolEnv where
  parseRes : String → Option Err
  connectRes : String → Option Err

/-- The loop body of `Open`: parse and connect each node in order,
stopping at the first failure. -/
def openNodes (env : PoolEnv) : List String → Except Err (List String)
  | [] => .ok []
  | node :: rest =>
    match env.parseRes node with
    | some err => .error err
    | none =>
      match env.connectRes node with
      | some err => .error err
      | none =>
        match openNodes env rest with
        | .error err => .error err
        | .ok ps => .ok (node :: ps)

/-- `Open(config)`: one pool per configured node, or the first failure. -/
def Open (env : PoolEnv) (config : Config) : Except Err Pools :=
  match openNodes env config.nodes with
  | .error err => .error err
  | .ok ps => .ok { pools := ps, count := 0 }

/-- `Registry` from `src/pgxpool/registry.go`: the name → pool-set map
(as an association list) and the configurations it was built from. -/
structure Registry where
  pools : List (String × Pools)
  conf : List (String × Config)
deriving DecidableEq

/-- The loop of `NewRegistry`: open the pool set of every entry, aborting
on the first failure. -/
def openAll (env : PoolEnv) : List (String × Config) → Except Err (List (String × Pools))
  | [] => .ok []
  | (name, config) :: rest =>
    match Open env config with
    | .error err => .error err
    | .ok p =>
      match openAll env rest with
      | .error err => .error err
      | .ok ps => .ok ((name, p) :: ps)

/-- `NewRegistry(configs)`: a registry with every configured pool set, or
the first `Open` failure and no registry. -/
def NewRegistry (env : PoolEnv) (configs : List (String × Config)) :
    Except Err Registry :=
  match openAll env configs with
  | .error err => .error err
  | .ok ps => .ok { pools := ps, conf := configs }

/-- `DEFAULT`, the default pool name. -/
def DEFAULT : String := "default"

/-- `Registry.GetPoolName(name)`: the stored pool set, or
`ErrUnknownPool` when the name is absent. -/
def Registry.GetPoolName (r : Registry) (name : String) : Except Err Pools :=
  match r.pools.lookup name with
  | some pool => .ok pool
  | none => .error .unknownPool

/-- `Registry.Pools()`: `GetPoolName(DEFAULT)`. -/
def Registry.Pools (r : Registry) : Except Err GoPgsql.Pools :=
  r.GetPoolName DEFAULT

/-- The loop of `Registry.Close`: close each contained pool set (the
returned list logs them in order) while deleting every entry. -/
def closeAll : List (String × Pools) → List Pools
  | [] => []
  | (_, pool) :: rest => pool :: closeAll rest

/-- `Registry.Close()`: close and remove every pool set; returns the Go
result (always nil), the emptied registry, and the pool sets closed. -/
def Registry.Close (r : Registry) : Option Err × Registry × List GoPgsql.Pools :=
  (none, { r with pools := [] }, closeAll r.pools)

/-! ## Concrete fixtures and canonical work functions -/

/-- A unit of work that returns the error value `r` (`none` = nil). -/
def workRet (r : Option Err) : Work := fun _ _ s => (.ok r, s)

/-- A unit of work that panics with `p`. -/
def workPanic (p : Panic) : Work := fun _ _ s => (.error p, s)

/-- `k + 1` nested `WithNestedTx` invocations, each inner call issued from
within the enclosing call's unit of work; the innermost work returns nil. -/
def nestWork (t : Transactor) : Nat → Work
  | 0 => fun _ _ s => (.ok none, s)
  | k + 1 => fun ctx _ s => t.WithNestedTx ctx (nestWork t k) s

/-- Like `nestWork` but the innermost unit of work returns the error
`err`; every enclosing unit of work propagates the error it receives. -/
def nestWorkErr (t : Transactor) (err : Err) : Nat → Work
  | 0 => fun _ _ s => (.ok (some err), s)
  | k + 1 => fun ctx _ s => t.WithNestedTx ctx (nestWorkErr t err k) s

/-- A connection on which every begin/commit/rollback succeeds. -/
def probeConn : ConnSpec := ⟨fun _ => none, fun _ => none, fun _ => none⟩

/-- A connection whose `Begin` always fails with error `e 7`. -/
def failConn : ConnSpec := ⟨fun _ => some (.e 7), fun _ => none, fun _ => none⟩

/-- A transactor over `probeConn`. -/
def probeT : Transactor := ⟨probeConn⟩

/-- A transactor over `failConn`. -/
def failT : Transactor := ⟨failConn⟩

/-- A fresh context: no transaction handle, no counter cell. -/
def ctx0 : Ctx := ⟨none, none⟩

/-- The starting state: no calls made, all cells zero. -/
def st0 : St := ⟨0, 0, 0, fun _ => 0, 0⟩

/-! ## Helper lemmas -/

theorem setCell_cells_self (s : St) (i : Nat) (v : Int) :
    (setCell s i v).cells i = v := by
  simp [setCell]

theorem setCell_setCell (s : St) (i : Nat) (v w : Int) :
    setCell (setCell s i v) i w = setCell s i w := by
  simp [setCell, Function.update_idem]

theorem setCell_self (s : St) (i : Nat) :
    setCell s i (s.cells i) = s := by
  simp [setCell, Function.update_eq_self]

theorem closeAll_eq_map (l : List (String × Pools)) :
    closeAll l = l.map Prod.snd := by
  induction l with
  | nil => rfl
  | cons hd tl ih => cases hd; simp [closeAll, ih]

/-! ## Claim theorems -/

/-- C4 (amended): when the underlying pool's begin call fails, `begin`
returns the *nil* context (not the original one) together with the
propagated error; no transaction handle is stored and nothing else in the
state changes beyond counting the begin attempt. -/
theorem begin_failure_returns_nil_ctx (t : Transactor) (ctx : Ctx) (s : St)
    (err : Err) (hb : t.conn.beginRes s.begins = some err) :
    t.begin ctx s = ((none, some err), { s with begins := s.begins + 1 }) := by
  simp [Transactor.begin, connBegin, hb]

/-- C4 witness: the amended claim at a concrete failing connection. -/
theorem begin_failure_returns_nil_ctx_witness :
    failT.begin ctx0 st0 = ((none, some (.e 7)), { st0 with begins := 1 }) :=
  begin_failure_returns_nil_ctx failT ctx0 st0 (.e 7) rfl

/-- C4 counterexample: the claim as stated — begin failure "returns the
original context unchanged" — is false: with a failing connection the
returned context is nil, not the original one. -/
theorem begin_failure_not_original_ctx :
    (failT.begin ctx0 st0).1.1 ≠ some ctx0 := by
  decide

/-- C5: `commit` and `rollback` on a context with no transaction handle
both return the `ErrNoTransaction` sentinel and touch nothing, and on a
context with a handle each delegates to the handle's Commit/Rollback. -/
theorem commit_rollback_no_transaction (t : Transactor) (ctx : Ctx) (s : St) :
    (ctx.tx = none →
      t.commit ctx s = (some .noTransaction, s) ∧
      t.rollback ctx s = (some .noTransaction, s)) ∧
    (∀ tx, ctx.tx = some tx →
      t.commit ctx s = txCommit t.conn s ∧
      t.rollback ctx s = txRollback t.conn s) := by
  constructor
  · intro h
    constructor <;> simp [Transactor.commit, Transactor.rollback, h]
  · intro tx h
    constructor <;> simp [Transactor.commit, Transactor.rollback, h]

/-- C5 witness: both operations on a fresh context return the sentinel. -/
theorem commit_rollback_no_transaction_witness :
    probeT.commit ctx0 st0 = (some .noTransaction, st0) ∧
    probeT.rollback ctx0 st0 = (some .noTransaction, st0) :=
  (commit_rollback_no_transaction probeT ctx0 st0).1 rfl

/-- C6: `Master` returns the pool at index 0; `Slave` returns the pool at
index 0 when there is exactly one pool (counter untouched); with `N ≥ 2`
pools, `Slave` stores the incremented (wrapping `uint64`) counter and
returns the pool at index `1 + (counter mod (N-1))`, an index that always
lies in `1..N-1` — never 0 — and always names an existing pool. -/
theorem master_slave_routing (p : Pools) :
    (∀ m rest, p.pools = m :: rest → p.Master = some m) ∧
    (∀ m, p.pools = [m] → p.Slave = (some m, p)) ∧
    (2 ≤ p.pools.length →
      (p.Slave).2 = { p with count := (p.count + 1) % 2 ^ 64 } ∧
      (p.Slave).1 =
        p.pools[1 + ((p.count + 1) % 2 ^ 64) % (p.pools.length - 1)]? ∧
      1 ≤ 1 + ((p.count + 1) % 2 ^ 64) % (p.pools.length - 1) ∧
      1 + ((p.count + 1) % 2 ^ 64) % (p.pools.length - 1) ≤ p.pools.length - 1 ∧
      ((p.Slave).1).isSome = true) := by
  refine ⟨?_, ?_, ?_⟩
  · intro m rest h
    simp [Pools.Master, h]
  · intro m h
    simp [Pools.Slave, Pools.slave, h]
  · intro h2
    have hpos : 0 < p.pools.length - 1 := by omega
    have hmod : ((p.count + 1) % 2 ^ 64) % (p.pools.length - 1) <
        p.pools.length - 1 := Nat.mod_lt _ hpos
    have hn : ¬ p.pools.length ≤ 1 := by omega
    have hidx : 1 + ((p.count + 1) % 2 ^ 64) % (p.pools.length - 1) <
        p.pools.length := by omega
    have hs1 : (p.Slave).1 =
        p.pools[1 + ((p.count + 1) % 2 ^ 64) % (p.pools.length - 1)]? := by
      simp [Pools.Slave, Pools.slave, hn]
    refine ⟨?_, hs1, by omega, by omega, ?_⟩
    · simp [Pools.Slave, Pools.slave, hn]
    · rw [hs1, List.getElem?_eq_getElem hidx]; rfl

/-- C6 witness: routing over the three-node set `["m", "r1", "r2"]`. -/
theorem master_slave_routing_witness :
    (Pools.mk ["m", "r1", "r2"] 0).Master = some "m" ∧
    (Pools.mk ["m", "r1", "r2"] 0).Slave = (some "r2", Pools.mk ["m", "r1", "r2"] 1) := by
  have h := master_slave_routing (Pools.mk ["m", "r1", "r2"] 0)
  refine ⟨h.1 "m" ["r1", "r2"] rfl, ?_⟩
  have h2 := h.2.2 (by decide)
  have e1 : (Pools.mk ["m", "r1", "r2"] 0).Slave.1 = some "r2" := by
    rw [h2.2.1]; decide
  have e2 : (Pools.mk ["m", "r1", "r2"] 0).Slave.2 = Pools.mk ["m", "r1", "r2"] 1 := by
    rw [h2.1]; decide
  exact Prod.ext e1 e2

/-- C7: registry construction is atomic — if opening the pool set of any
configuration entry fails, `NewRegistry` returns an error (one produced by
a failing entry) and no registry; and whenever it does return a registry,
that registry contains a pool set for every configured entry. -/
theorem newRegistry_atomic (env : PoolEnv) (configs : List (String × Config)) :
    ((∃ nc ∈ configs, ∃ err, Open env nc.2 = .error err) →
      ∃ err, NewRegistry env configs = .error err ∧
        ∃ nc ∈ configs, Open env nc.2 = .error err) ∧
    (∀ reg, NewRegistry env configs = .ok reg →
      ∀ nc ∈ configs, ∃ p, Open env nc.2 = .ok p ∧ (nc.1, p) ∈ reg.pools) := by
  have key : ∀ cs : List (String × Config),
      ((∃ nc ∈ cs, ∃ err, Open env nc.2 = .error err) →
        ∃ err, openAll env cs = .error err ∧
          ∃ nc ∈ cs, Open env nc.2 = .error err) ∧
      (∀ ps, openAll env cs = .ok ps →
        ∀ nc ∈ cs, ∃ p, Open env nc.2 = .ok p ∧ (nc.1, p) ∈ ps) := by
    intro cs
    induction cs with
    | nil => simp [openAll]
    | cons hd tl ih =>
      obtain ⟨name, config⟩ := hd
      constructor
      · rintro ⟨nc, hmem, err, herr⟩
        rcases List.mem_cons.1 hmem with hhd | htl
        · subst hhd
          refine ⟨err, ?_, ⟨name, config⟩, List.mem_cons_self _ _, herr⟩
          simp only [openAll, herr]
        · match hopen : Open env config with
          | .error e0 =>
            exact ⟨e0, by simp only [openAll, hopen], ⟨name, config⟩,
              List.mem_cons_self _ _, hopen⟩
          | .ok p0 =>
            obtain ⟨e1, h1, nc1, hmem1, h2⟩ := ih.1 ⟨nc, htl, err, herr⟩
            exact ⟨e1, by simp only [openAll, hopen, h1], nc1,
              List.mem_cons_of_mem _ hmem1, h2⟩
      · intro ps hps nc hmem
        match hopen : Open env config with
        | .error e0 => simp [openAll, hopen] at hps
        | .ok p0 =>
          match hall : openAll env tl with
          | .error e1 => simp [openAll, hopen, hall] at hps
          | .ok ps1 =>
            simp only [openAll, hopen, hall, Except.ok.injEq] at hps
            subst hps
            rcases List.mem_cons.1 hmem with hhd | htl
            · subst hhd
              exact ⟨p0, hopen, List.mem_cons_self _ _⟩
            · obtain ⟨p1, hp1, hmem1⟩ := (ih.2 ps1 hall) nc htl
              exact ⟨p1, hp1, List.mem_cons_of_mem _ hmem1⟩
  constructor
  · intro hex
    obtain ⟨err, h1, h2⟩ := (key configs).1 hex
    exact ⟨err, by simp only [NewRegistry, h1], h2⟩
  · intro reg hreg nc hmem
    match hall : openAll env configs with
    | .error e1 => simp [NewRegistry, hall] at hreg
    | .ok ps =>
      simp only [NewRegistry, hall, Except.ok.injEq] at hreg
      subst hreg
      exact (key configs).2 ps hall nc hmem

/-- C7 witness: a two-entry configuration whose second entry has an
unconnectable node makes `NewRegistry` fail with that entry's error. -/
theorem newRegistry_atomic_witness :
    ∃ err, NewRegistry
        ⟨fun _ => none, fun node => if node = "bad" then some (.e 3) else none⟩
        [("default", ⟨["good"], 4, 0, 0, 0, 0, false, false⟩),
         ("other", ⟨["bad"], 4, 0, 0, 0, 0, false, false⟩)] = .error err := by
  obtain ⟨err, h1, _⟩ :=
    (newRegistry_atomic
      ⟨fun _ => none, fun node => if node = "bad" then some (.e 3) else none⟩
      [("default", ⟨["good"], 4, 0, 0, 0, 0, false, false⟩),
       ("other", ⟨["bad"], 4, 0, 0, 0, 0, false, false⟩)]).1
      ⟨("other", ⟨["bad"], 4, 0, 0, 0, 0, false, false⟩), by simp, .e 3, by rfl⟩
  exact ⟨err, h1⟩

/-- C8: `GetPoolName` returns the stored pool set when the name is
present, the `ErrUnknownPool` sentinel (and no other error) when it is
absent, and `Pools()` is exactly `GetPoolName "default"`. -/
theorem getPoolName_lookup (r : Registry) (name : String) :
    (∀ p, r.pools.lookup name = some p → r.GetPoolName name = .ok p) ∧
    (r.pools.lookup name = none → r.GetPoolName name = .error .unknownPool) ∧
    (∀ err, r.GetPoolName name = .error err → err = .unknownPool) ∧
    r.Pools = r.GetPoolName "default" := by
  refine ⟨?_, ?_, ?_, rfl⟩
  · intro p h
    simp [Registry.GetPoolName, h]
  · intro h
    simp [Registry.GetPoolName, h]
  · intro err h
    unfold Registry.GetPoolName at h
    match hl : List.lookup name r.pools with
    | some p => rw [hl] at h; exact absurd h (by simp)
    | none => rw [hl] at h; simpa using h.symm

/-- C8 witness: a one-entry registry — lookup of the stored name succeeds,
lookup of a missing name yields the sentinel. -/
theorem getPoolName_lookup_witness :
    (Registry.mk [("default", Pools.mk ["m"] 0)] []).GetPoolName "default" =
      .ok (Pools.mk ["m"] 0) ∧
    (Registry.mk [("default", Pools.mk ["m"] 0)] []).GetPoolName "missing" =
      .error .unknownPool :=
  ⟨(getPoolName_lookup (Registry.mk [("default", Pools.mk ["m"] 0)] []) "default").1
      (Pools.mk ["m"] 0) rfl,
   (getPoolName_lookup (Registry.mk [("default", Pools.mk ["m"] 0)] []) "missing").2.1 rfl⟩

/-- C9: after `Close()` the registry holds no entries (every lookup, by
any name, fails with the unknown-pool sentinel), the pool sets closed are
exactly the contained ones, the Go result is nil, and a second `Close()`
on the emptied registry is a no-op (it closes nothing and leaves the
registry unchanged). -/
theorem close_empties_registry (r : Registry) :
    (r.Close).1 = none ∧
    (r.Close).2.1.pools = [] ∧
    (∀ name, (r.Close).2.1.GetPoolName name = .error .unknownPool) ∧
    (r.Close).2.2 = r.pools.map Prod.snd ∧
    (r.Close).2.1.Close = (none, (r.Close).2.1, []) := by
  refine ⟨rfl, rfl, ?_, ?_, rfl⟩
  · intro name
    simp [Registry.Close, Registry.GetPoolName]
  · simpa [Registry.Close] using closeAll_eq_map r.pools

/-- C9 witness: closing a one-entry registry empties it, closes its only
pool set, and makes every later lookup fail. -/
theorem close_empties_registry_witness :
    ((Registry.mk [("default", Pools.mk ["m"] 0)] []).Close).2.1.pools = [] ∧
    ((Registry.mk [("default", Pools.mk ["m"] 0)] []).Close).2.1.GetPoolName "default" =
      .error .unknownPool ∧
    ((Registry.mk [("default", Pools.mk ["m"] 0)] []).Close).2.2 =
      [Pools.mk ["m"] 0] := by
  have h := close_empties_registry (Registry.mk [("default", Pools.mk ["m"] 0)] [])
  exact ⟨h.2.1, h.2.2.1 "default", h.2.2.2.1⟩

/-- C1: the `WithTx` contract. On a context already carrying a handle the
work runs directly against it, with no begin/commit/rollback by this
invocation. On a context with none (and the begin succeeding), exactly
one transaction is begun, and then: nil work result — one commit, no
rollback, a commit failure becoming the result; error result — one
rollback, no commit, the original error returned unchanged; panic — one
rollback, no commit, the panic re-propagated unchanged. -/
theorem withTx_contract (t : Transactor) (ctx : Ctx) (s : St) :
    (∀ tx (tFunc : Work), ctx.tx = some tx →
      t.WithTx ctx tFunc s = tFunc ctx tx s) ∧
    (ctx.tx = none → t.conn.beginRes s.begins = none →
      t.WithTx ctx (workRet none) s =
        (.ok (t.conn.commitRes s.commits),
         { s with begins := s.begins + 1, commits := s.commits + 1 }) ∧
      (∀ err, t.WithTx ctx (workRet (some err)) s =
        (.ok (some err),
         { s with begins := s.begins + 1, rollbacks := s.rollbacks + 1 })) ∧
      (∀ p, t.WithTx ctx (workPanic p) s =
        (.error p,
         { s with begins := s.begins + 1, rollbacks := s.rollbacks + 1 }))) := by
  constructor
  · intro tx tFunc h
    simp [Transactor.WithTx, h]
  · intro h hb
    refine ⟨?_, ?_, ?_⟩ <;>
      simp [Transactor.WithTx, Transactor.begin, connBegin, Transactor.commit,
        Transactor.rollback, txCommit, txRollback, workRet, workPanic, h, hb]

/-- C1 witness: a fresh context with an all-succeeding connection — the
three work behaviours at a concrete input. -/
theorem withTx_contract_witness :
    probeT.WithTx ctx0 (workRet none) st0 =
      (.ok none, { st0 with begins := 1, commits := 1 }) ∧
    probeT.WithTx ctx0 (workRet (some (.e 3))) st0 =
      (.ok (some (.e 3)), { st0 with begins := 1, rollbacks := 1 }) ∧
    probeT.WithTx ctx0 (workPanic (.user 5)) st0 =
      (.error (.user 5), { st0 with begins := 1, rollbacks := 1 }) := by
  have h := (withTx_contract probeT ctx0 st0).2 rfl rfl
  exact ⟨h.1, h.2.1 (.e 3), h.2.2 (.user 5)⟩

/-! ## Nested-transaction machinery -/

theorem tick_existing (ctx : Ctx) (i : Nat) (hc : ctx.counterRef = some i)
    (v : Int) (s : St) :
    tickTxCounter (some ctx) v s = (.ok ctx, setCell s i (s.cells i + v)) := by
  simp [tickTxCounter, hc]

theorem tick_fresh (ctx : Ctx) (hc : ctx.counterRef = none) (v : Int) (s : St) :
    tickTxCounter (some ctx) v s =
      (.ok { ctx with counterRef := some s.nextCell },
       setCell { s with nextCell := s.nextCell + 1 } s.nextCell v) := by
  simp [tickTxCounter, hc, setCell_setCell, setCell_cells_self]

/-- A non-owner `WithNestedTx` (handle already present): the work runs
against the shared handle with the counter bumped, and — for a work that
returns `r` leaving the state as it found it — the call returns `r` with
the state exactly restored: no begin, no commit, no rollback, counter
back to its prior value. -/
theorem withNestedTx_nonOwner (t : Transactor) (ctx : Ctx) (tx : Tx) (i : Nat)
    (htx : ctx.tx = some tx) (hc : ctx.counterRef = some i)
    (tFunc : Work) (r : Option Err) (s : St)
    (hw : tFunc ctx tx (setCell s i (s.cells i + 1)) =
          (.ok r, setCell s i (s.cells i + 1))) :
    t.WithNestedTx ctx tFunc s = (.ok r, s) := by
  cases r with
  | none =>
    simp only [Transactor.WithNestedTx, Transactor.beginNestedTx,
      tick_existing ctx i hc, htx, hw]
    simp [setCell_cells_self, setCell_setCell, add_neg_cancel_right, setCell_self]
  | some err =>
    simp only [Transactor.WithNestedTx, Transactor.beginNestedTx,
      tick_existing ctx i hc, htx, hw]
    simp [setCell_cells_self, setCell_setCell, add_neg_cancel_right, setCell_self]

/-- Any depth of nested all-succeeding invocations over an existing
handle returns nil and restores the state exactly. -/
theorem nestWork_inner (t : Transactor) (k : Nat) :
    ∀ (ctx : Ctx) (tx : Tx) (i : Nat) (s : St),
      ctx.tx = some tx → ctx.counterRef = some i →
      t.WithNestedTx ctx (nestWork t k) s = (.ok none, s) := by
  induction k with
  | zero =>
    intro ctx tx i s htx hc
    exact withNestedTx_nonOwner t ctx tx i htx hc _ none _ rfl
  | succ k ih =>
    intro ctx tx i s htx hc
    refine withNestedTx_nonOwner t ctx tx i htx hc _ none _ ?_
    simpa [nestWork] using ih ctx tx i (setCell s i (s.cells i + 1)) htx hc

/-- Any depth of nested invocations over an existing handle whose
innermost work fails with `err` returns that error and restores the state
exactly: in particular a non-owner never rolls back. -/
theorem nestWorkErr_inner (t : Transactor) (err : Err) (k : Nat) :
    ∀ (ctx : Ctx) (tx : Tx) (i : Nat) (s : St),
      ctx.tx = some tx → ctx.counterRef = some i →
      t.WithNestedTx ctx (nestWorkErr t err k) s = (.ok (some err), s) := by
  induction k with
  | zero =>
    intro ctx tx i s htx hc
    exact withNestedTx_nonOwner t ctx tx i htx hc _ (some err) _ rfl
  | succ k ih =>
    intro ctx tx i s htx hc
    refine withNestedTx_nonOwner t ctx tx i htx hc _ (some err) _ ?_
    simpa [nestWorkErr] using ih ctx tx i (setCell s i (s.cells i + 1)) htx hc

/-- The owner `WithNestedTx` (no handle present, begin succeeding), for a
work that returns nil leaving the state as it found it: one begin, one
commit (whose failure becomes the result), no rollback, counter cell back
to zero. -/
theorem withNestedTx_owner_ok (t : Transactor) (ctx : Ctx) (s : St)
    (htx : ctx.tx = none) (hc : ctx.counterRef = none)
    (hb : t.conn.beginRes s.begins = none) (tFunc : Work)
    (hw : tFunc ⟨some s.begins, some s.nextCell⟩ s.begins
            { s with begins := s.begins + 1,
                     cells := Function.update s.cells s.nextCell 1,
                     nextCell := s.nextCell + 1 } =
          (.ok none,
           { s with begins := s.begins + 1,
                    cells := Function.update s.cells s.nextCell 1,
                    nextCell := s.nextCell + 1 })) :
    t.WithNestedTx ctx tFunc s =
      (.ok (t.conn.commitRes s.commits),
       { s with begins := s.begins + 1, commits := s.commits + 1,
                cells := Function.update s.cells s.nextCell 0,
                nextCell := s.nextCell + 1 }) := by
  obtain ⟨txv, cntv⟩ := ctx
  cases htx
  cases hc
  simp only [Transactor.WithNestedTx, Transactor.beginNestedTx,
    tick_fresh (⟨none, none⟩ : Ctx) rfl 1 s, setCell,
    Transactor.begin, connBegin, hb]
  rw [hw]
  simp only [tick_existing (⟨some s.begins, some s.nextCell⟩ : Ctx) s.nextCell rfl (-1),
    setCell, Function.update_same, Function.update_idem, if_true]
  norm_num [Transactor.commit, txCommit]

/-- The owner `WithNestedTx` for a work that returns `err` leaving the
state as it found it: one begin, one rollback (its result discarded), no
commit, the error returned unchanged, counter cell back to zero. -/
theorem withNestedTx_owner_err (t : Transactor) (ctx : Ctx) (s : St)
    (htx : ctx.tx = none) (hc : ctx.counterRef = none)
    (hb : t.conn.beginRes s.begins = none) (tFunc : Work) (err : Err)
    (hw : tFunc ⟨some s.begins, some s.nextCell⟩ s.begins
            { s with begins := s.begins + 1,
                     cells := Function.update s.cells s.nextCell 1,
                     nextCell := s.nextCell + 1 } =
          (.ok (some err),
           { s with begins := s.begins + 1,
                    cells := Function.update s.cells s.nextCell 1,
                    nextCell := s.nextCell + 1 })) :
    t.WithNestedTx ctx tFunc s =
      (.ok (some err),
       { s with begins := s.begins + 1, rollbacks := s.rollbacks + 1,
                cells := Function.update s.cells s.nextCell 0,
                nextCell := s.nextCell + 1 }) := by
  obtain ⟨txv, cntv⟩ := ctx
  cases htx
  cases hc
  simp only [Transactor.WithNestedTx, Transactor.beginNestedTx,
    tick_fresh (⟨none, none⟩ : Ctx) rfl 1 s, setCell,
    Transactor.begin, connBegin, hb]
  rw [hw]
  simp only [tick_existing (⟨some s.begins, some s.nextCell⟩ : Ctx) s.nextCell rfl (-1),
    setCell, Function.update_same, Function.update_idem, if_true]
  norm_num [Transactor.rollback, txRollback]

/-- C10 (code behaviour): when `Begin` fails on a fresh context,
`WithNestedTx` does not return the error — it panics with a nil-pointer
dereference (`tickTxCounter` is called on the nil context `begin`
returned), the unit of work never runs, no handle is stored, no commit or
rollback happens, and the depth counter is left at 1, not restored. -/
theorem withNestedTx_begin_failure (t : Transactor) (ctx : Ctx) (s : St)
    (err : Err) (tFunc : Work)
    (htx : ctx.tx = none) (hc : ctx.counterRef = none)
    (hb : t.conn.beginRes s.begins = some err) :
    t.WithNestedTx ctx tFunc s =
      (.error .nilDeref,
       { s with begins := s.begins + 1,
                cells := Function.update s.cells s.nextCell 1,
                nextCell := s.nextCell + 1 }) ∧
    (t.WithNestedTx ctx tFunc s).2.cells s.nextCell = 1 := by
  obtain ⟨txv, cntv⟩ := ctx
  cases htx
  cases hc
  constructor
  · simp only [Transactor.WithNestedTx, Transactor.beginNestedTx,
      tick_fresh (⟨none, none⟩ : Ctx) rfl 1 s, setCell,
      Transactor.begin, connBegin, hb]
    simp [tickTxCounter]
  · simp only [Transactor.WithNestedTx, Transactor.beginNestedTx,
      tick_fresh (⟨none, none⟩ : Ctx) rfl 1 s, setCell,
      Transactor.begin, connBegin, hb]
    simp [tickTxCounter]

/-- C2: `k + 1 ≥ 2` recursively nested `WithNestedTx` invocations, all
units of work succeeding, perform exactly one begin and exactly one
terminal commit (and no rollback) regardless of the depth, and the
nesting-depth cell stored in the context is zero after the outermost call
returns. -/
theorem withNestedTx_collapse (t : Transactor) (ctx : Ctx) (s : St) (k : Nat)
    (hk : 1 ≤ k) (htx : ctx.tx = none) (hc : ctx.counterRef = none)
    (hb : t.conn.beginRes s.begins = none) :
    t.WithNestedTx ctx (nestWork t k) s =
      (.ok (t.conn.commitRes s.commits),
       { s with begins := s.begins + 1, commits := s.commits + 1,
                cells := Function.update s.cells s.nextCell 0,
                nextCell := s.nextCell + 1 }) ∧
    (t.WithNestedTx ctx (nestWork t k) s).2.cells s.nextCell = 0 := by
  obtain ⟨j, rfl⟩ : ∃ j, k = j + 1 := ⟨k - 1, by omega⟩
  have hw : nestWork t (j + 1) ⟨some s.begins, some s.nextCell⟩ s.begins
      { s with begins := s.begins + 1,
               cells := Function.update s.cells s.nextCell 1,
               nextCell := s.nextCell + 1 } =
      (.ok none,
       { s with begins := s.begins + 1,
                cells := Function.update s.cells s.nextCell 1,
                nextCell := s.nextCell + 1 }) := by
    simpa [nestWork] using nestWork_inner t j ⟨some s.begins, some s.nextCell⟩
      s.begins s.nextCell _ rfl rfl
  have hmain := withNestedTx_owner_ok t ctx s htx hc hb (nestWork t (j + 1)) hw
  exact ⟨hmain, by rw [hmain]; simp [Function.update_same]⟩

/-- C2 witness: three nested invocations on a concrete fresh context. -/
theorem withNestedTx_collapse_witness :
    probeT.WithNestedTx ctx0 (nestWork probeT 2) st0 =
      (.ok (probeT.conn.commitRes st0.commits),
       { st0 with begins := st0.begins + 1, commits := st0.commits + 1,
                  cells := Function.update st0.cells st0.nextCell 0,
                  nextCell := st0.nextCell + 1 }) ∧
    (probeT.WithNestedTx ctx0 (nestWork probeT 2) st0).2.cells st0.nextCell = 0 :=
  withNestedTx_collapse probeT ctx0 st0 2 (by decide) rfl rfl rfl

/-- C3: with `k + 1 ≥ 2` nested invocations whose innermost work fails
with `err` (each enclosing work propagating the error it receives), the
outermost (owner) call returns the error having rolled back exactly once,
and every non-owner (enclosing, nested) call returns the error while
leaving the state untouched — a non-owner never rolls back or commits. -/
theorem withNestedTx_inner_failure (t : Transactor) (err : Err) (ctx : Ctx)
    (s : St) (k : Nat) (hk : 1 ≤ k) (htx : ctx.tx = none)
    (hc : ctx.counterRef = none) (hb : t.conn.beginRes s.begins = none) :
    t.WithNestedTx ctx (nestWorkErr t err k) s =
      (.ok (some err),
       { s with begins := s.begins + 1, rollbacks := s.rollbacks + 1,
                cells := Function.update s.cells s.nextCell 0,
                nextCell := s.nextCell + 1 }) ∧
    (∀ (ctx1 : Ctx) (tx : Tx) (i : Nat) (s1 : St) (j : Nat),
      ctx1.tx = some tx → ctx1.counterRef = some i →
      t.WithNestedTx ctx1 (nestWorkErr t err j) s1 = (.ok (some err), s1)) := by
  constructor
  · obtain ⟨j, rfl⟩ : ∃ j, k = j + 1 := ⟨k - 1, by omega⟩
    have hw : nestWorkErr t err (j + 1) ⟨some s.begins, some s.nextCell⟩ s.begins
        { s with begins := s.begins + 1,
                 cells := Function.update s.cells s.nextCell 1,
                 nextCell := s.nextCell + 1 } =
        (.ok (some err),
         { s with begins := s.begins + 1,
                  cells := Function.update s.cells s.nextCell 1,
                  nextCell := s.nextCell + 1 }) := by
      simpa [nestWorkErr] using nestWorkErr_inner t err j ⟨some s.begins, some s.nextCell⟩
        s.begins s.nextCell _ rfl rfl
    exact withNestedTx_owner_err t ctx s htx hc hb (nestWorkErr t err (j + 1)) err hw
  · intro ctx1 tx i s1 j h1 h2
    exact nestWorkErr_inner t err j ctx1 tx i s1 h1 h2

/-- C3 witness: three nested invocations, innermost failing, on a
concrete fresh context. -/
theorem withNestedTx_inner_failure_witness :
    probeT.WithNestedTx ctx0 (nestWorkErr probeT (.e 4) 2) st0 =
      (.ok (some (.e 4)),
       { st0 with begins := st0.begins + 1, rollbacks := st0.rollbacks + 1,
                  cells := Function.update st0.cells st0.nextCell 0,
                  nextCell := st0.nextCell + 1 }) :=
  (withNestedTx_inner_failure probeT (.e 4) ctx0 st0 2 (by decide) rfl rfl rfl).1

/-- C10 witness: the failing connection at a concrete fresh context. -/
theorem withNestedTx_begin_failure_witness :
    failT.WithNestedTx ctx0 (workRet none) st0 =
      (.error .nilDeref,
       { st0 with begins := st0.begins + 1,
                  cells := Function.update st0.cells st0.nextCell 1,
                  nextCell := st0.nextCell + 1 }) ∧
    (failT.WithNestedTx ctx0 (workRet none) st0).2.cells st0.nextCell = 1 :=
  withNestedTx_begin_failure failT ctx0 st0 (.e 7) (workRet none) rfl rfl rfl


end GoPgsql
